import Mathlib

/-!
A verification development for the question-matching core of `src/main.py`:
the tokenizer (`split`), the approximate word matcher built on the
Levenshtein `ratio` with `score_cutoff`, the scorer (`get_question_matches`),
the response truncation (`InputResponse.from_request`) and the answer lookup
(`get_answer`).

Strings are modelled as `List Char`; Python string behaviour is modelled over
the ASCII range (`str.lower`, `str.isdecimal`, the whitespace set of
`str.split`).
-/

namespace PSUBot

/-- The 32 characters of Python `string.punctuation`. -/
def pyPunct : List Char :=
  ['!', '"', '#', '$', '%', '&', Char.ofNat 39, '(', ')', '*', '+', ',', '-', '.', '/',
   ':', ';', '<', '=', '>', '?', '@', '[', '\\', ']', '^', Char.ofNat 95, Char.ofNat 96,
   Char.ofNat 123, '|', Char.ofNat 125, '~']

/-- Membership in Python `string.punctuation`. -/
def isPunctChar (c : Char) : Bool :=
  pyPunct.contains c

/-- ASCII-range whitespace as recognised by Python `str.split()`:
tab through carriage return (9-13), the separator controls (28-31) and
space (32). -/
def isSpaceChar (c : Char) : Bool :=
  (9 ≤ c.toNat && c.toNat ≤ 13) || (28 ≤ c.toNat && c.toNat ≤ 32)

/-- Python `word.isdecimal()` (ASCII range): nonempty and every character a
decimal digit. -/
def isDecimalWord (w : List Char) : Bool :=
  !w.isEmpty && w.all Char.isDigit

/-- The keep test of `split`: `len(word) > 2 or word.isdecimal()`. -/
def keepWord (w : List Char) : Bool :=
  decide (2 < w.length) || isDecimalWord w

/-- The punctuation-removal loop of `split`:
`for char in punctuation: question = question.replace(char, "")`
(replacing a single character by the empty string deletes its occurrences). -/
def stripPunct (s : List Char) : List Char :=
  pyPunct.foldl (fun acc c => acc.filter (fun d => d != c)) s

/-- The whitespace-separated raw words of the punctuation-stripped,
lowercased input: Python `question.split()` (runs of whitespace separate,
empty chunks are dropped). -/
def rawWords (s : List Char) : List (List Char) :=
  (((stripPunct s).map Char.toLower).splitOnP isSpaceChar).filter
    (fun w => !w.isEmpty)

/-- Function `split` from `src/main.py` lines 87-106: remove all punctuation,
lowercase, split on whitespace, keep the words of length > 2 and the
all-decimal words. -/
def split (s : List Char) : List (List Char) :=
  (rawWords s).filter keepWord

/-- One step of the indel-distance recursion: given `f = indelDist as`, this
computes `indelDist (a :: as)` by structural recursion on the second word. -/
def indelAux (a : Char) (f : List Char → Nat) : List Char → Nat
  | [] => f [] + 1
  | b :: bs => if a = b then f bs else 1 + min (f (b :: bs)) (indelAux a f bs)

/-- The indel distance (Levenshtein distance with substitutions weighted 2,
equivalently insert/delete-only edit distance), the distance underlying
`Levenshtein.ratio`. -/
def indelDist : List Char → List Char → Nat
  | [], bs => bs.length
  | a :: as, bs => indelAux a (indelDist as) bs

/-- The library ratio, `Levenshtein.ratio a b = (lensum - dist) / lensum` with `dist` the
weighted (indel) distance; the ratio of two empty strings is 1. -/
def ratio (a b : List Char) : ℚ :=
  if a.length + b.length = 0 then 1
  else ((a.length + b.length : ℚ) - indelDist a b) / (a.length + b.length)

/-- Constant `SCORE_CUTOFF` from `src/main.py` line 20. -/
def SCORE_CUTOFF : ℚ := 0.8

/-- The per-pair test of `get_question_matches` line 126:
`Levenshtein.ratio(question_word, user_word, score_cutoff=SCORE_CUTOFF)` is
truthy.  With `score_cutoff` set, the call returns 0 below the cutoff and the
(nonzero, since the cutoff is 0.8 > 0) ratio at or above it, so the test is
`SCORE_CUTOFF ≤ ratio a b`; multiplying out the denominator, that is
`5 * indelDist a b ≤ a.length + b.length`, the executable form used here.
`isMatch_iff_cutoff_le_ratio` proves the two forms equal. -/
def isMatch (a b : List Char) : Bool :=
  decide (5 * indelDist a b ≤ a.length + b.length)

/-- The number of `(questionWord, userWord)` pairs whose similarity ratio is
at least the cutoff — the pair count the specification describes, written
directly over `ratio` and `SCORE_CUTOFF`. -/
def cutoffPairs (question_words user_words : List (List Char)) : Nat :=
  ((question_words.product user_words).filter
    (fun p => decide (SCORE_CUTOFF ≤ ratio p.1 p.2))).length

/-- The nested counting loop of `get_question_matches` lines 123-127:
for every word of the question, for every word of the user input, add one
when the pair matches. -/
def matchesNumber (question_words user_words : List (List Char)) : Nat :=
  question_words.foldl
    (fun acc qw =>
      user_words.foldl (fun acc2 uw => if isMatch qw uw then acc2 + 1 else acc2) acc)
    0

/-- Lines 119-129 of `get_question_matches`: scan the candidate questions in
order and emit `(question, matches_number)` for each question with at least
one match.  This is the match list before the final sort. -/
def rawMatches (user_input : List Char) (questions : List (List Char)) :
    List (List Char × Nat) :=
  questions.filterMap (fun question =>
    let n := matchesNumber (split question) (split user_input)
    if 0 < n then some (question, n) else none)

/-- The order used by line 130, `matches.sort(key=lambda x: x[1], reverse=True)`:
an entry may precede another when its match count is at least as large. -/
def countGE (x y : List Char × Nat) : Prop :=
  y.2 ≤ x.2

instance : DecidableRel countGE :=
  fun x y => Nat.decLe y.2 x.2

instance : IsTotal (List Char × Nat) countGE :=
  ⟨fun a b => Nat.le_total b.2 a.2⟩

instance : IsTrans (List Char × Nat) countGE :=
  ⟨fun _ _ _ h1 h2 => Nat.le_trans h2 h1⟩

/-- Function `get_question_matches` from `src/main.py` lines 109-132.  Python
`list.sort` with `reverse=True` is a stable sort by descending key; insertion
sort with `countGE` (insert behind every entry with a strictly larger count,
in front of equal counts scanned later) computes exactly that stable order. -/
def get_question_matches (user_input : List Char) (questions : List (List Char)) :
    List (List Char × Nat) :=
  List.insertionSort countGE (rawMatches user_input questions)

/-- Constant `MATCHES_LIMIT` from `src/main.py` line 22. -/
def MATCHES_LIMIT : Nat := 10

namespace InputResponse

/-- Classmethod `InputResponse.from_request`, lines 234-239: the question texts of the
first `MATCHES_LIMIT` entries of the ranked match list
(`matches[:MATCHES_LIMIT]`, keeping `elem[0]` of each entry). -/
def from_request (user_input : List Char) (questions : List (List Char)) :
    List (List Char) :=
  ((get_question_matches user_input questions).take MATCHES_LIMIT).map Prod.fst

end InputResponse

/-- A row of the `questions` table: question text, answer text and the
optional `;`-separated picture links column. -/
structure QuestionRow where
  question : List Char
  answer : List Char
  pictures_links : Option (List Char)

/-- Line 84: `pictures_links.split(";")` when the column is set, else `[]`. -/
def splitLinks : Option (List Char) → List (List Char)
  | none => []
  | some s => s.splitOn ';'

/-- Function `get_answer` from `src/main.py` lines 67-84: look the question up by
exact text (`session.scalar` returns the first matching row or `None`),
raise `ValueError` when absent, else return the answer and picture links. -/
def get_answer (db : List QuestionRow) (question : List Char) :
    Except (List Char) (List Char × List (List Char)) :=
  match db.find? (fun row => row.question == question) with
  | none => Except.error
      ((("No question ").toList) ++ question ++ ((" in db").toList))
  | some row => Except.ok (row.answer, splitLinks row.pictures_links)

/-- The test input of §8 of the specification,
`"What is 2+2? A: it's 4!"` (the apostrophe written by code). -/
def c5input : List Char :=
  ("What is 2+2? A: it").toList ++ [Char.ofNat 39] ++ ("s 4!").toList

/-- The word `it's`, apostrophe written by code. -/
def wordIts : List Char :=
  ("it").toList ++ [Char.ofNat 39] ++ ("s").toList

/-! ### Tokenizer lemmas -/

/-- Removing the characters of a list one by one is filtering them all out. -/
theorem foldl_filter_bne (ps : List Char) (s : List Char) :
    ps.foldl (fun acc c => acc.filter (fun d => d != c)) s
      = s.filter (fun d => !ps.contains d) := by
  induction ps generalizing s with
  | nil => simp
  | cons p ps ih =>
    rw [List.foldl_cons, ih, List.filter_filter]
    apply List.filter_congr
    intro d _
    rcases eq_or_ne d p with h | h <;> simp [h, Bool.and_comm]

/-- The punctuation-removal loop deletes exactly the punctuation characters. -/
theorem stripPunct_eq_filter (s : List Char) :
    stripPunct s = s.filter (fun d => !isPunctChar d) :=
  foldl_filter_bne pyPunct s

/-- Lowercasing (basic-latin case folding) fixes whitespace characters. -/
theorem toLower_of_isSpace (c : Char) (h : isSpaceChar c = true) :
    Char.toLower c = c := by
  unfold Char.toLower
  rw [if_neg]
  rintro ⟨h1, -⟩
  simp only [isSpaceChar, Bool.or_eq_true, Bool.and_eq_true, decide_eq_true_eq] at h
  omega

/-- Whitespace-only text has no nonempty whitespace-separated chunk. -/
theorem filter_splitOnP_all {p : Char → Bool} :
    ∀ s : List Char, (∀ c ∈ s, p c = true) →
      (s.splitOnP p).filter (fun w => !w.isEmpty) = []
  | [], _ => by simp [List.splitOnP_nil]
  | c :: s, h => by
    rw [List.splitOnP_cons, if_pos (h c (List.mem_cons_self c s))]
    rw [List.filter_cons]
    simp only [List.isEmpty_nil, Bool.not_true, Bool.false_eq_true, if_false]
    exact filter_splitOnP_all s (fun d hd => h d (List.mem_cons_of_mem c hd))

/-! ### Claims about the tokenizer -/

/-- C4: `split` keeps a whitespace-separated raw word (of the
punctuation-stripped, lowercased input) exactly when its length is greater
than 2 or it is entirely decimal digits; the function is total (it is a Lean
function), the empty string yields no tokens, and a string of only
punctuation and whitespace yields no tokens. -/
theorem split_keep_iff_and_edge_cases :
    (∀ s w, w ∈ split s ↔
        (w ∈ rawWords s ∧ (2 < w.length ∨ isDecimalWord w = true)))
    ∧ split [] = []
    ∧ (∀ s, (∀ c ∈ s, isPunctChar c = true ∨ isSpaceChar c = true) →
        split s = []) := by
  refine ⟨?_, by decide, ?_⟩
  · intro s w
    rw [split, List.mem_filter, keepWord]
    simp
  · intro s h
    have hall : ∀ c ∈ (stripPunct s).map Char.toLower, isSpaceChar c = true := by
      intro c hc
      rcases List.mem_map.mp hc with ⟨d, hd, rfl⟩
      rw [stripPunct_eq_filter] at hd
      rcases List.mem_filter.mp hd with ⟨hds, hdp⟩
      have hsp : isSpaceChar d = true := by
        rcases h d hds with h1 | h1
        · rw [h1] at hdp; simp at hdp
        · exact h1
      rw [toLower_of_isSpace d hsp]
      exact hsp
    rw [split, rawWords, filter_splitOnP_all _ hall]
    rfl

/-- Witness for C4: `"?!  ."` is punctuation and whitespace only, and indeed
tokenizes to the empty sequence. -/
theorem split_keep_iff_and_edge_cases_witness :
    (∀ c ∈ (("?!  .").toList), isPunctChar c = true ∨ isSpaceChar c = true)
    ∧ split (("?!  .").toList) = [] :=
  ⟨by decide, split_keep_iff_and_edge_cases.2.2 (("?!  .").toList) (by decide)⟩

/-- C5 fails as stated: on `"What is 2+2? A: it's 4!"` no token `"2"` is
produced — punctuation removal merges `2+2` into the single token `"22"`
before word splitting. -/
theorem split_c5_no_token_two :
    (("2").toList) ∉ split c5input := by decide

/-- C5 (amended): tokenizing `"What is 2+2? A: it's 4!"` yields exactly
`["what", "22", "its", "4"]`: the short non-numeric words `"is"` and `"A"`
are dropped, the numeric tokens `"22"` (the merge of `2+2`) and `"4"` are
kept despite their length, and `"what"` is kept because its length is 4. -/
theorem split_c5_value :
    split c5input =
      [("what").toList, ("22").toList, ("its").toList, ("4").toList] := by
  decide

/-- C6 fails as stated: the mixed alphanumeric word `"ab1"` is itself a
token of `split "ab1"`, and it is neither purely numeric nor purely
alphabetic of length at least 3. -/
theorem split_token_mixed_counterexample :
    (("ab1").toList) ∈ split (("ab1").toList)
    ∧ ¬(isDecimalWord (("ab1").toList) = true
        ∨ (3 ≤ (("ab1").toList).length
            ∧ (("ab1").toList).all Char.isAlpha = true)) := by
  decide

/-- C6 (amended): every token produced by `split` is either purely numeric
(of any length) or has length at least 3. -/
theorem split_token_shape (s w : List Char) (hw : w ∈ split s) :
    isDecimalWord w = true ∨ 3 ≤ w.length := by
  rcases List.mem_filter.mp hw with ⟨-, hk⟩
  simp only [keepWord, Bool.or_eq_true, decide_eq_true_eq] at hk
  rcases hk with h | h
  · right; omega
  · left; exact h

/-- Witness for the amended C6 at the token `"ab1"` of `split "ab1"`. -/
theorem split_token_shape_witness :
    (("ab1").toList) ∈ split (("ab1").toList)
    ∧ (isDecimalWord (("ab1").toList) = true ∨ 3 ≤ (("ab1").toList).length) :=
  ⟨by decide, split_token_shape (("ab1").toList) (("ab1").toList) (by decide)⟩

/-- C9: punctuation is deleted from the whole input before word splitting,
so a punctuation character never separates words: deleting it from the
input leaves `split` unchanged, `"2+2"` tokenizes to the single token
`"22"`, and `"it's"` tokenizes to the single token `"its"`. -/
theorem split_punct_no_separator :
    (∀ (u v : List Char) (c : Char), c ∈ pyPunct →
        split (u ++ c :: v) = split (u ++ v))
    ∧ split (("2+2").toList) = [("22").toList]
    ∧ split wordIts = [("its").toList] := by
  refine ⟨?_, by decide, by decide⟩
  intro u v c hc
  have hpc : isPunctChar c = true := by
    simp only [isPunctChar]
    exact List.elem_iff.mpr hc
  have hstrip : stripPunct (u ++ c :: v) = stripPunct (u ++ v) := by
    rw [stripPunct_eq_filter, stripPunct_eq_filter,
      List.filter_append, List.filter_append, List.filter_cons]
    simp [hpc]
  rw [split, split, rawWords, rawWords, hstrip]

/-- Witness for C9: removing the `+` of `"2+2"` does not change the tokens. -/
theorem split_punct_no_separator_witness :
    (Char.ofNat 43 ∈ pyPunct)
    ∧ split ((("2").toList) ++ Char.ofNat 43 :: (("2").toList))
        = split ((("2").toList) ++ (("2").toList)) :=
  ⟨by decide,
    split_punct_no_separator.1 (("2").toList) (("2").toList) (Char.ofNat 43)
      (by decide)⟩

/-! ### Matcher lemmas and claims -/

/-- The distance to an empty second word is the length of the first word. -/
theorem indelDist_nil_right (a : List Char) : indelDist a [] = a.length := by
  induction a with
  | nil => rfl
  | cons x xs ih => simp [indelDist, indelAux, ih]

/-- The standard recurrence of the indel distance. -/
theorem indelDist_cons_cons (a b : Char) (as bs : List Char) :
    indelDist (a :: as) (b :: bs) =
      if a = b then indelDist as bs
      else 1 + min (indelDist as (b :: bs)) (indelDist (a :: as) bs) := by
  rfl

/-- The indel distance is symmetric. -/
theorem indelDist_symm (a : List Char) : ∀ b, indelDist a b = indelDist b a := by
  induction a with
  | nil => intro b; rw [indelDist_nil_right]; rfl
  | cons x xs ihx =>
    intro b
    induction b with
    | nil => rw [indelDist_nil_right]; rfl
    | cons y ys ihy =>
      rw [indelDist_cons_cons, indelDist_cons_cons]
      by_cases hxy : x = y
      · rw [if_pos hxy, if_pos hxy.symm, ihx ys]
      · rw [if_neg hxy, if_neg (fun h => hxy h.symm), ihx (y :: ys), ← ihy,
          Nat.min_comm]

/-- The indel distance of a word with itself is 0. -/
theorem indelDist_self (x : List Char) : indelDist x x = 0 := by
  induction x with
  | nil => rfl
  | cons a as ih => rw [indelDist_cons_cons, if_pos rfl, ih]

/-- The Boolean `isMatch` is exactly the test "similarity ratio at least the cutoff". -/
theorem isMatch_iff_cutoff_le_ratio (a b : List Char) :
    isMatch a b = true ↔ SCORE_CUTOFF ≤ ratio a b := by
  unfold isMatch ratio SCORE_CUTOFF
  rcases Nat.eq_zero_or_pos (a.length + b.length) with h | h
  · rcases Nat.add_eq_zero.mp h with ⟨h1, h2⟩
    rw [List.length_eq_zero] at h1 h2
    subst h1; subst h2
    simp [indelDist]
    norm_num
  · have hne : a.length + b.length ≠ 0 := Nat.pos_iff_ne_zero.mp h
    rw [if_neg hne, decide_eq_true_iff]
    have hQ : (0 : ℚ) < (a.length + b.length : ℚ) := by exact_mod_cast h
    rw [le_div_iff₀ hQ]
    constructor
    · intro hle
      have : (5 * indelDist a b : ℚ) ≤ (a.length + b.length : ℚ) := by
        exact_mod_cast hle
      norm_num
      linarith
    · intro hle
      have : (5 * indelDist a b : ℚ) ≤ (a.length + b.length : ℚ) := by
        norm_num at hle
        linarith
      exact_mod_cast this

/-- The Boolean cutoff test written over `ratio` is `isMatch`. -/
theorem decide_cutoff_eq_isMatch (a b : List Char) :
    decide (SCORE_CUTOFF ≤ ratio a b) = isMatch a b := by
  by_cases h : SCORE_CUTOFF ≤ ratio a b
  · rw [decide_eq_true h, (isMatch_iff_cutoff_le_ratio a b).mpr h]
  · rw [decide_eq_false h]
    cases hm : isMatch a b
    · rfl
    · exact absurd ((isMatch_iff_cutoff_le_ratio a b).mp hm) h

/-- C7: the per-word match test is symmetric, and any non-empty token
matches itself. -/
theorem isMatch_symm_and_refl :
    (∀ a b, isMatch a b = isMatch b a)
    ∧ (∀ x : List Char, x ≠ [] → isMatch x x = true) := by
  constructor
  · intro a b
    unfold isMatch
    rw [indelDist_symm, Nat.add_comm]
  · intro x _
    unfold isMatch
    rw [indelDist_self]
    simp

/-- Witness for C7 at the non-empty token `"how"`. -/
theorem isMatch_symm_and_refl_witness :
    (("how").toList ≠ ([] : List Char))
    ∧ isMatch (("how").toList) (("how").toList) = true :=
  ⟨by decide, isMatch_symm_and_refl.2 (("how").toList) (by decide)⟩

/-! ### Scorer lemmas and claims -/

/-- The inner loop of the scorer counts the matching user words. -/
theorem foldl_count_matches (qw : List Char) (uws : List (List Char)) :
    ∀ acc, uws.foldl (fun a uw => if isMatch qw uw then a + 1 else a) acc
      = acc + uws.countP (fun uw => isMatch qw uw) := by
  induction uws with
  | nil => intro acc; simp
  | cons u us ih =>
    intro acc
    rw [List.foldl_cons, ih, List.countP_cons]
    cases h : isMatch qw u
    · simp [h]
    · simp [h]
      omega

/-- The nested loops of the scorer compute the total match count over all
question words. -/
theorem matchesNumber_eq_sum (qws uws : List (List Char)) :
    matchesNumber qws uws
      = (qws.map (fun qw => uws.countP (fun uw => isMatch qw uw))).sum := by
  unfold matchesNumber
  suffices h : ∀ (l : List (List Char)) (acc : Nat),
      l.foldl (fun acc qw =>
        uws.foldl (fun acc2 uw => if isMatch qw uw then acc2 + 1 else acc2) acc)
        acc
        = acc + (l.map (fun qw => uws.countP (fun uw => isMatch qw uw))).sum by
    simpa using h qws 0
  intro l
  induction l with
  | nil => intro acc; simp
  | cons q l ih =>
    intro acc
    rw [List.foldl_cons, ih, foldl_count_matches]
    simp
    omega

/-- The pair count of the specification is the same total. -/
theorem cutoffPairs_eq_sum (qws uws : List (List Char)) :
    cutoffPairs qws uws
      = (qws.map (fun qw => uws.countP (fun uw => isMatch qw uw))).sum := by
  induction qws with
  | nil => simp [cutoffPairs, List.product]
  | cons q qws ih =>
    have hcons : List.product (q :: qws) uws
        = uws.map (Prod.mk q) ++ List.product qws uws := by
      simp [List.product]
    rw [cutoffPairs, hcons, List.filter_append, List.length_append]
    have hmap : ((uws.map (Prod.mk q)).filter
        (fun p => decide (SCORE_CUTOFF ≤ ratio p.1 p.2))).length
        = uws.countP (fun uw => isMatch q uw) := by
      rw [List.filter_map, List.length_map, List.countP_eq_length_filter]
      congr 1
      apply List.filter_congr
      intro uw _
      exact decide_cutoff_eq_isMatch q uw
    have hrest : ((List.product qws uws).filter
        (fun p => decide (SCORE_CUTOFF ≤ ratio p.1 p.2))).length
        = cutoffPairs qws uws := rfl
    rw [hmap, hrest, ih, List.map_cons, List.sum_cons]

/-- C1: every entry of `get_question_matches` carries as its score exactly
the number of `(questionWord, userWord)` pairs whose similarity ratio is at
least the cutoff (a many-to-many pair count), every emitted score is at
least 1, and a candidate with pair count at least 1 appears in the result
(with that count). -/
theorem get_question_matches_score_spec :
    ∀ (user_input : List Char) (questions : List (List Char)),
      (∀ p ∈ get_question_matches user_input questions,
          p.2 = cutoffPairs (split p.1) (split user_input) ∧ 1 ≤ p.2)
      ∧ (∀ q ∈ questions,
          1 ≤ cutoffPairs (split q) (split user_input) →
            (q, cutoffPairs (split q) (split user_input)) ∈
              get_question_matches user_input questions) := by
  intro ui qs
  constructor
  · intro p hp
    rw [get_question_matches, List.mem_insertionSort, rawMatches] at hp
    rcases List.mem_filterMap.mp hp with ⟨q, hq, hfq⟩
    dsimp only at hfq
    by_cases h : 0 < matchesNumber (split q) (split ui)
    · rw [if_pos h] at hfq
      have hp2 : p = (q, matchesNumber (split q) (split ui)) :=
        (Option.some.inj hfq).symm
      rw [hp2]
      dsimp only
      refine ⟨?_, h⟩
      rw [matchesNumber_eq_sum, cutoffPairs_eq_sum]
    · rw [if_neg h] at hfq
      cases hfq
  · intro q hq hcut
    rw [get_question_matches, List.mem_insertionSort, rawMatches]
    apply List.mem_filterMap.mpr
    refine ⟨q, hq, ?_⟩
    have heq : matchesNumber (split q) (split ui)
        = cutoffPairs (split q) (split ui) := by
      rw [matchesNumber_eq_sum, cutoffPairs_eq_sum]
    have h : 0 < matchesNumber (split q) (split ui) := by omega
    dsimp only
    rw [if_pos h, heq]

/-- Witness for C1: for the utterance `"how old"` and candidates
`["How are you", "How old are you"]`, the second candidate is emitted with
score 2, which is its cutoff pair count. -/
theorem get_question_matches_score_spec_witness :
    (((("How old are you").toList), 2) ∈
        get_question_matches (("how old").toList)
          [("How are you").toList, ("How old are you").toList])
    ∧ (2 = cutoffPairs (split (("How old are you").toList))
          (split (("how old").toList))
        ∧ 1 ≤ 2) :=
  ⟨by decide,
    (get_question_matches_score_spec (("how old").toList)
        [("How are you").toList, ("How old are you").toList]).1
      ((("How old are you").toList), 2) (by decide)⟩

/-- Ordered insertion with `countGE` inserts in front of the kept entries of
its own count and behind entries of a larger count, so the filtered view at
any fixed count gains the new entry at the front exactly when the counts
agree. -/
theorem filter_orderedInsert_count (c : Nat) (a : List Char × Nat) :
    ∀ l : List (List Char × Nat),
      (List.orderedInsert countGE a l).filter (fun p => p.2 == c)
        = if a.2 == c then a :: l.filter (fun p => p.2 == c)
          else l.filter (fun p => p.2 == c)
  | [] => by
    cases h : (a.2 == c) <;> simp [h]
  | b :: l => by
    by_cases hab : countGE a b
    · rw [List.orderedInsert_of_le countGE l hab]
      cases h : (a.2 == c) <;> cases hb : (b.2 == c) <;>
        simp [List.filter_cons, h, hb]
    · have hstep : List.orderedInsert countGE a (b :: l)
          = b :: List.orderedInsert countGE a l := by
        simp only [List.orderedInsert, if_neg hab]
      have hlt : a.2 < b.2 := Nat.lt_of_not_le hab
      rw [hstep, List.filter_cons, filter_orderedInsert_count c a l]
      cases h : (a.2 == c)
      · simp [List.filter_cons, h]
      · have hac : a.2 = c := by simpa using h
        have hb : (b.2 == c) = false := by
          have hne : b.2 ≠ c := by omega
          simpa using hne
        simp [List.filter_cons, h, hb]

/-- Insertion sort with `countGE` is stable: at every fixed count, the
filtered view of the sorted list is the filtered view of the input. -/
theorem filter_insertionSort_count (c : Nat) :
    ∀ l : List (List Char × Nat),
      (List.insertionSort countGE l).filter (fun p => p.2 == c)
        = l.filter (fun p => p.2 == c)
  | [] => rfl
  | a :: l => by
    rw [List.insertionSort, filter_orderedInsert_count,
      filter_insertionSort_count c l, List.filter_cons]

/-- C2: the result of `get_question_matches` is sorted by match count in
descending order, and entries of equal count keep the relative order of
`rawMatches`, the order in which their questions appear in the candidate
list (stable descending sort). -/
theorem get_question_matches_sorted_stable :
    ∀ (user_input : List Char) (questions : List (List Char)),
      List.Pairwise (fun x y => y.2 ≤ x.2)
        (get_question_matches user_input questions)
      ∧ ∀ c : Nat,
          (get_question_matches user_input questions).filter
              (fun p => p.2 == c)
            = (rawMatches user_input questions).filter (fun p => p.2 == c) := by
  intro ui qs
  constructor
  · exact List.sorted_insertionSort countGE (rawMatches ui qs)
  · intro c
    exact filter_insertionSort_count c (rawMatches ui qs)

/-- No candidate matching at all means an empty match list. -/
theorem rawMatches_eq_nil (user_input : List Char) (questions : List (List Char))
    (h : ∀ q ∈ questions, matchesNumber (split q) (split user_input) = 0) :
    rawMatches user_input questions = [] := by
  rw [rawMatches, List.filterMap_eq_nil_iff]
  intro q hq
  dsimp only
  rw [if_neg]
  simp [h q hq]

/-- C3: `InputResponse.from_request` returns the question texts of the first
`MATCHES_LIMIT` (= 10) ranked entries: never more than the limit, all of
them (in ranked order) when fewer than the limit match, and the empty
sequence — not an error — when no candidate matches. -/
theorem from_request_truncates :
    ∀ (user_input : List Char) (questions : List (List Char)),
      (InputResponse.from_request user_input questions).length ≤ MATCHES_LIMIT
      ∧ ((get_question_matches user_input questions).length < MATCHES_LIMIT →
          InputResponse.from_request user_input questions
            = (get_question_matches user_input questions).map Prod.fst)
      ∧ ((∀ q ∈ questions, matchesNumber (split q) (split user_input) = 0) →
          InputResponse.from_request user_input questions = []) := by
  intro ui qs
  refine ⟨?_, ?_, ?_⟩
  · rw [InputResponse.from_request, List.length_map, List.length_take]
    exact Nat.min_le_left _ _
  · intro h
    rw [InputResponse.from_request, List.take_of_length_le (Nat.le_of_lt h)]
  · intro h
    rw [InputResponse.from_request, get_question_matches, rawMatches_eq_nil ui qs h]
    rfl

/-- Witness for C3: with candidates `["How are you", "How old are you"]` and
utterance `"how old"` only 2 < 10 entries match, and all are returned in
ranked order; with the lone candidate `"xyz"` nothing matches and the
response is empty. -/
theorem from_request_truncates_witness :
    ((get_question_matches (("how old").toList)
          [("How are you").toList, ("How old are you").toList]).length
        < MATCHES_LIMIT
      ∧ InputResponse.from_request (("how old").toList)
            [("How are you").toList, ("How old are you").toList]
          = (get_question_matches (("how old").toList)
              [("How are you").toList, ("How old are you").toList]).map Prod.fst)
    ∧ ((∀ q ∈ [("xyz").toList],
          matchesNumber (split q) (split (("how old").toList)) = 0)
      ∧ InputResponse.from_request (("how old").toList) [("xyz").toList] = []) :=
  ⟨⟨by decide,
      (from_request_truncates (("how old").toList)
          [("How are you").toList, ("How old are you").toList]).2.1 (by decide)⟩,
    ⟨by decide,
      (from_request_truncates (("how old").toList) [("xyz").toList]).2.2
        (by decide)⟩⟩

/-- C10: a user utterance with no tokens (for example empty or
punctuation-only) matches nothing: the ranked list and the response are
empty. -/
theorem empty_user_tokens_no_matches :
    ∀ (user_input : List Char) (questions : List (List Char)),
      split user_input = [] →
        get_question_matches user_input questions = []
        ∧ InputResponse.from_request user_input questions = [] := by
  intro ui qs h
  have hmn : ∀ q ∈ qs, matchesNumber (split q) (split ui) = 0 := by
    intro q _
    rw [h, matchesNumber_eq_sum]
    apply List.sum_eq_zero
    intro x hx
    rcases List.mem_map.mp hx with ⟨qw, -, rfl⟩
    simp
  have hraw := rawMatches_eq_nil ui qs hmn
  constructor
  · rw [get_question_matches, hraw]
    rfl
  · rw [InputResponse.from_request, get_question_matches, hraw]
    rfl

/-- Witness for C10: the punctuation-only utterance `"?!"` tokenizes to
nothing and produces no matches against the candidate `"How are you"`. -/
theorem empty_user_tokens_no_matches_witness :
    split (("?!").toList) = []
    ∧ (get_question_matches (("?!").toList) [("How are you").toList] = []
        ∧ InputResponse.from_request (("?!").toList) [("How are you").toList] = []) :=
  ⟨by decide,
    empty_user_tokens_no_matches (("?!").toList) [("How are you").toList]
      (by decide)⟩

/-- C8: `get_answer` fails exactly when no stored question equals the
requested question string — and then with the distinct, recoverable
`ValueError`/`UnknownQuestion` outcome, never another error — and when the
question is present it returns the stored answer and picture links of the
first matching row. -/
theorem get_answer_error_iff :
    ∀ (db : List QuestionRow) (question : List Char),
      ((∃ e, get_answer db question = Except.error e)
          ↔ ∀ row ∈ db, row.question ≠ question)
      ∧ (∀ row, db.find? (fun r => r.question == question) = some row →
          get_answer db question
            = Except.ok (row.answer, splitLinks row.pictures_links)) := by
  intro db q
  constructor
  · constructor
    · rintro ⟨e, he⟩ row hrow hq
      rw [get_answer] at he
      cases hfind : db.find? (fun r => r.question == q) with
      | none =>
        exact List.find?_eq_none.mp hfind row hrow (by simpa using hq)
      | some r =>
        rw [hfind] at he
        cases he
    · intro hall
      rw [get_answer]
      cases hfind : db.find? (fun r => r.question == q) with
      | none => exact ⟨_, rfl⟩
      | some r =>
        have hmem := List.mem_of_find?_eq_some hfind
        have hbeq := List.find?_some hfind
        exact absurd (by simpa using hbeq) (hall r hmem)
  · intro row hfind
    rw [get_answer, hfind]

/-- Witness for C8: in a one-row corpus, asking for the absent question
`"q2"` errors, and asking for the stored question `"q1"` returns its answer
and its two picture links. -/
theorem get_answer_error_iff_witness :
    ((∀ row ∈ [(⟨("q1").toList, ("a1").toList, some (("p1;p2").toList)⟩ :
          QuestionRow)], row.question ≠ ("q2").toList)
      ∧ (∃ e, get_answer
          [(⟨("q1").toList, ("a1").toList, some (("p1;p2").toList)⟩ :
            QuestionRow)] (("q2").toList) = Except.error e))
    ∧ get_answer
        [(⟨("q1").toList, ("a1").toList, some (("p1;p2").toList)⟩ :
          QuestionRow)] (("q1").toList)
      = Except.ok ((("a1").toList), [("p1").toList, ("p2").toList]) :=
  ⟨⟨by decide,
      (get_answer_error_iff
          [(⟨("q1").toList, ("a1").toList, some (("p1;p2").toList)⟩ :
            QuestionRow)] (("q2").toList)).1.mpr (by decide)⟩,
    (get_answer_error_iff
        [(⟨("q1").toList, ("a1").toList, some (("p1;p2").toList)⟩ :
          QuestionRow)] (("q1").toList)).2
      ⟨("q1").toList, ("a1").toList, some (("p1;p2").toList)⟩ (by rfl)⟩

end PSUBot

section Tests

example : PSUBot.split (("What is 22").toList) =
    [("what").toList, ("22").toList] := by decide

example : PSUBot.split (("").toList) = [] := by decide

example : PSUBot.split (("?!  .").toList) = [] := by decide

example : PSUBot.split (("ab1 2+2 A").toList) =
    [("ab1").toList, ("22").toList] := by decide

example : PSUBot.isMatch (("how").toList) (("how").toList) = true := by decide

example : PSUBot.isMatch (("how").toList) (("old").toList) = false := by decide

example : PSUBot.split PSUBot.c5input =
    [("what").toList, ("22").toList, ("its").toList, ("4").toList] := by decide

example :
    PSUBot.get_question_matches (("how old").toList)
      [("How are you").toList, ("How old are you").toList] =
    [((("How old are you").toList), 2), ((("How are you").toList), 1)] := by
  decide

example :
    PSUBot.InputResponse.from_request (("how old").toList)
      [("How are you").toList, ("How old are you").toList] =
    [("How old are you").toList, ("How are you").toList] := by decide

example :
    PSUBot.get_answer [⟨("q1").toList, ("a1").toList, some (("p1;p2").toList)⟩]
      (("q1").toList) =
    Except.ok ((("a1").toList), [("p1").toList, ("p2").toList]) := by rfl

end Tests
